import Mathlib

/-!
Shallow embedding of the collection router of Project-Sunga
(src/server/app/routers/collections.py) and verification of its
specification.

The persistence store is modelled as lists of rows; each HTTP handler
becomes a pure function from the store (plus the authenticated user id
and path parameters) to a result paired with the updated store.  A
failing handler returns `Except.error` carrying the HTTP status and the
detail string of the raised `HTTPException`.
-/

namespace Sunga

/-- Row of the `collections` table: id, owning user, name, optional
description, creation timestamp. -/
structure Collection where
  id : String
  user_id : String
  name : String
  description : Option String
  created_at : Nat
deriving DecidableEq

/-- Row of the `records` table: id, owning user, filename, content,
nullable membership reference to a collection, creation timestamp. -/
structure Record where
  id : String
  user_id : String
  filename : String
  content : String
  collection_id : Option String
  created_at : Nat
deriving DecidableEq

/-- Row of the `shares` table: id, share token, nullable collection
reference, active flag. -/
structure Share where
  id : String
  share_token : String
  collection_id : Option String
  is_active : Bool
deriving DecidableEq

/-- The persistence store visible to this router. -/
structure DB where
  collections : List Collection
  records : List Record
  shares : List Share
deriving DecidableEq

/-- An HTTP error as raised by `HTTPException(status_code, detail)`. -/
structure Err where
  status : Nat
  detail : String
deriving DecidableEq

/-- Builds the only error this router produces: a 404 with a detail
message. -/
def notFound (msg : String) : Err := ⟨404, msg⟩

/-- Request body of POST and PUT (schema `CollectionCreate`): required
name, optional description. -/
structure CollectionCreate where
  name : String
  description : Option String
deriving DecidableEq

/-- Request body of PATCH (schema `CollectionUpdate`): both fields
optional; `none` models an absent (or null) field. -/
structure CollectionUpdate where
  name : Option String
  description : Option String
deriving DecidableEq

/-- Reduced projection of a collection returned by the share endpoint. -/
structure CollectionSummary where
  id : String
  name : String
  description : Option String
  created_at : Nat
deriving DecidableEq

/-- Reduced projection of a record returned by the share endpoint. -/
structure RecordSummary where
  id : String
  filename : String
  content : String
  created_at : Nat
deriving DecidableEq

/-- Response body of GET /collections/share/{token}. -/
structure SharedCollectionResponse where
  collection : CollectionSummary
  records : List RecordSummary
deriving DecidableEq

/-- Mutates the first element of a list satisfying `p`, as SQLAlchemy
mutates the single row object returned by `.first()`. -/
def updateFirst (p : α → Bool) (f : α → α) : List α → List α
  | [] => []
  | x :: xs => if p x then f x :: xs else x :: updateFirst p f xs

/-- Ownership-scoped row filter used by every authenticated handler:
`Collection.id == collection_id, Collection.user_id == current_user.id`. -/
def ownedCol (uid cid : String) (c : Collection) : Bool :=
  c.id == cid && c.user_id == uid

/-- Ownership filter on records: `Record.id == record_id,
Record.user_id == current_user.id`. -/
def ownedRec (uid rid : String) (r : Record) : Bool :=
  r.id == rid && r.user_id == uid

/-- Handler `get_collection` (GET /collections/{id}). -/
def get_collection (db : DB) (uid cid : String) :
    Except Err Collection × DB :=
  match db.collections.find? (ownedCol uid cid) with
  | none => (.error (notFound "Collection not found"), db)
  | some c => (.ok c, db)

/-- Handler `get_all_collections` (GET /collections/). -/
def get_all_collections (db : DB) (uid : String) :
    Except Err (List Collection) × DB :=
  (.ok (db.collections.filter (fun c => c.user_id == uid)), db)

/-- Handler `update_collection` (PUT /collections/{id}): full replace,
both fields overwritten unconditionally. -/
def update_collection (db : DB) (uid cid : String)
    (body : CollectionCreate) : Except Err Collection × DB :=
  match db.collections.find? (ownedCol uid cid) with
  | none => (.error (notFound "Collection not found"), db)
  | some c =>
      let apply := fun (c : Collection) =>
        { c with name := body.name, description := body.description }
      let cols := updateFirst (ownedCol uid cid) apply db.collections
      (.ok (apply c), { db with collections := cols })

/-- Handler of PATCH /collections/{id}, the PatchUpdate operation: each
field is written only when it is not `None` in the body. -/
def patch_collection (db : DB) (uid cid : String)
    (body : CollectionUpdate) : Except Err Collection × DB :=
  match db.collections.find? (ownedCol uid cid) with
  | none => (.error (notFound "Collection not found"), db)
  | some c =>
      let apply := fun (c : Collection) =>
        { c with
            name := match body.name with
              | some n => n
              | none => c.name,
            description := match body.description with
              | some d => some d
              | none => c.description }
      let cols := updateFirst (ownedCol uid cid) apply db.collections
      (.ok (apply c), { db with collections := cols })

/-- Handler `get_records_from_collection`
(GET /collections/{id}/records). -/
def get_records_from_collection (db : DB) (uid cid : String) :
    Except Err (List Record) × DB :=
  match db.collections.find? (ownedCol uid cid) with
  | none => (.error (notFound "Collection not found"), db)
  | some _ =>
      (.ok (db.records.filter (fun r => r.collection_id == some cid)), db)

/-- Handler `add_record_to_collection`
(PUT /collections/{id}/records/{record_id}). -/
def add_record_to_collection (db : DB) (uid cid rid : String) :
    Except Err String × DB :=
  match db.collections.find? (ownedCol uid cid) with
  | none => (.error (notFound "Collection not found"), db)
  | some _ =>
      match db.records.find? (ownedRec uid rid) with
      | none => (.error (notFound "Record not found"), db)
      | some _ =>
          let recs := updateFirst (ownedRec uid rid)
            (fun r => { r with collection_id := some cid }) db.records
          (.ok "Record added to collection successfully",
           { db with records := recs })

/-- Row filter of the remove handler: record owned by the caller and
currently linked to this specific collection. -/
def ownedRecIn (uid cid rid : String) (r : Record) : Bool :=
  r.id == rid && r.user_id == uid && r.collection_id == some cid

/-- Handler `remove_record_from_collection`
(DELETE /collections/{id}/records/{record_id}). -/
def remove_record_from_collection (db : DB) (uid cid rid : String) :
    Except Err String × DB :=
  match db.collections.find? (ownedCol uid cid) with
  | none => (.error (notFound "Collection not found"), db)
  | some _ =>
      match db.records.find? (ownedRecIn uid cid rid) with
      | none => (.error (notFound "Record not found in this collection"), db)
      | some _ =>
          let recs := updateFirst (ownedRecIn uid cid rid)
            (fun r => { r with collection_id := none }) db.records
          (.ok "Record removed from collection successfully",
           { db with records := recs })

/-- Handler `delete_collection` (DELETE /collections/{id}): bulk-clears
the membership reference of every record linked to the collection, then
deletes the collection row. -/
def delete_collection (db : DB) (uid cid : String) :
    Except Err String × DB :=
  match db.collections.find? (ownedCol uid cid) with
  | none => (.error (notFound "Collection not found"), db)
  | some c =>
      let recs := db.records.map (fun r =>
        if r.collection_id == some cid then { r with collection_id := none }
        else r)
      let cols := db.collections.eraseP (fun x => x.id == c.id)
      (.ok "Collection deleted successfully",
       { db with records := recs, collections := cols })

/-- Share row filter: exact token match, active, non-null collection
reference. -/
def validShare (token : String) (s : Share) : Bool :=
  s.share_token == token && s.is_active && s.collection_id.isSome

/-- Projection of a collection to its whitelisted fields. -/
def projCollection (c : Collection) : CollectionSummary :=
  ⟨c.id, c.name, c.description, c.created_at⟩

/-- Projection of a record to its whitelisted fields. -/
def projRecord (r : Record) : RecordSummary :=
  ⟨r.id, r.filename, r.content, r.created_at⟩

/-- Handler `access_shared_collection`
(GET /collections/share/{share_token}); no caller identity. -/
def access_shared_collection (db : DB) (token : String) :
    Except Err SharedCollectionResponse × DB :=
  match db.shares.find? (validShare token) with
  | none => (.error (notFound "Invalid or expired share link"), db)
  | some share =>
      match db.collections.find? (fun c => some c.id == share.collection_id) with
      | none => (.error (notFound "Collection not found"), db)
      | some c =>
          (.ok ⟨projCollection c,
                (db.records.filter
                  (fun r => r.collection_id == share.collection_id)).map
                  projRecord⟩,
           db)

/-- Renames every owner id in the store through arbitrary functions,
leaving all other fields alone; used to state that the share endpoint
output carries no owner information. -/
def scrubOwners (f g : String → String) (db : DB) : DB :=
  { db with
     collections := db.collections.map
       (fun c => { c with user_id := f c.user_id }),
     records := db.records.map
       (fun r => { r with user_id := g r.user_id }) }

/-!
Concrete fixtures used by the witness theorems.
-/

/-- Fixture collection owned by user u1. -/
def colA : Collection := ⟨"c1", "u1", "Work", some "tasks", 0⟩

/-- Fixture store holding only `colA`. -/
def dbA : DB := ⟨[colA], [], []⟩

/-- Fixture record linked to c1, owned by a different user u2. -/
def recA : Record := ⟨"r1", "u2", "a.txt", "hi", some "c1", 1⟩

/-- Fixture record owned by u1 and not linked to any collection. -/
def recB : Record := ⟨"r2", "u1", "b.txt", "yo", none, 2⟩

/-- Fixture store with one collection and two records. -/
def dbB : DB := ⟨[colA], [recA, recB], []⟩

/-- Fixture share that is inactive. -/
def shrInactive : Share := ⟨"s1", "tokI", some "c1", false⟩

/-- Fixture share whose collection reference is null. -/
def shrNull : Share := ⟨"s2", "tokN", none, true⟩

/-- Fixture store for the share failure cases. -/
def dbC : DB := ⟨[colA], [], [shrInactive, shrNull]⟩

/-- Fixture share granting access to c1. -/
def shrOk : Share := ⟨"s3", "tokV", some "c1", true⟩

/-- Fixture store with a valid share, the collection and its records. -/
def dbD : DB := ⟨[colA], [recA, recB], [shrOk]⟩

/-- Fixture collection owned by user u2. -/
def colB : Collection := ⟨"c2", "u2", "Other", none, 3⟩

/-- Fixture store where collection c1 belongs to u1, collection c2 to
u2, and the only record with id r1 belongs to u2. -/
def dbE : DB := ⟨[colA, colB], [recA], []⟩

/-- Fixture record owned by u1 and linked to c1. -/
def recC : Record := ⟨"r3", "u1", "c.txt", "hey", some "c1", 4⟩

/-- Fixture second collection owned by u1. -/
def colC : Collection := ⟨"c3", "u1", "Third", none, 5⟩

/-- Fixture store with two collections of u1 and a record linked to
c1. -/
def dbF : DB := ⟨[colA, colC], [recC], []⟩

/-!
General lemmas about `List.find?`, `updateFirst` and `List.eraseP`,
shared by the theorems below.
-/

theorem updateFirst_nil (p : α → Bool) (f : α → α) :
    updateFirst p f [] = [] := rfl

theorem updateFirst_cons (p : α → Bool) (f : α → α) (x : α) (xs : List α) :
    updateFirst p f (x :: xs) =
      if p x then f x :: xs else x :: updateFirst p f xs := rfl

theorem mem_updateFirst_of_find? {p : α → Bool} {f : α → α} {l : List α}
    {a : α} (h : l.find? p = some a) : f a ∈ updateFirst p f l := by
  induction l with
  | nil => simp [List.find?] at h
  | cons x xs ih =>
      rw [List.find?_cons] at h
      rw [updateFirst_cons]
      split
      · next hp =>
          rw [hp] at h
          simp only [Option.some.injEq] at h
          subst h
          exact List.mem_cons_self _ _
      · next hp =>
          rw [Bool.not_eq_true] at hp
          rw [hp] at h
          exact List.mem_cons_of_mem _ (ih h)

theorem updateFirst_eq_self_of_fix {p : α → Bool} {f : α → α} {l : List α}
    {a : α} (h : l.find? p = some a) (hfix : f a = a) :
    updateFirst p f l = l := by
  induction l with
  | nil => rfl
  | cons x xs ih =>
      rw [List.find?_cons] at h
      rw [updateFirst_cons]
      split
      · next hp =>
          rw [hp] at h
          simp only [Option.some.injEq] at h
          subst h
          rw [hfix]
      · next hp =>
          rw [Bool.not_eq_true] at hp
          rw [hp] at h
          rw [ih h]

theorem updateFirst_eq_self_of_none {p : α → Bool} {f : α → α} {l : List α}
    (h : l.find? p = none) : updateFirst p f l = l := by
  induction l with
  | nil => rfl
  | cons x xs ih =>
      rw [List.find?_cons] at h
      rw [updateFirst_cons]
      split
      · next hp => rw [hp] at h; exact absurd h (by simp)
      · next hp =>
          rw [Bool.not_eq_true] at hp
          rw [hp] at h
          rw [ih h]

theorem find?_updateFirst {p : α → Bool} {f : α → α} {l : List α}
    (hpres : ∀ x, p (f x) = p x) :
    (updateFirst p f l).find? p = (l.find? p).map f := by
  induction l with
  | nil => rfl
  | cons x xs ih =>
      rw [updateFirst_cons]
      split
      · next hp =>
          rw [List.find?_cons, hpres x, hp, List.find?_cons, hp]
          rfl
      · next hp =>
          rw [Bool.not_eq_true] at hp
          rw [List.find?_cons, hp, List.find?_cons, hp, ih]

theorem updateFirst_updateFirst {p : α → Bool} {f : α → α} {l : List α}
    (hpres : ∀ x, p (f x) = p x) :
    updateFirst p f (updateFirst p f l) =
      updateFirst p (fun x => f (f x)) l := by
  induction l with
  | nil => rfl
  | cons x xs ih =>
      rw [updateFirst_cons, updateFirst_cons]
      split
      · next hp => rw [updateFirst_cons, hpres x, if_pos hp]
      · next hp =>
          rw [Bool.not_eq_true] at hp
          rw [updateFirst_cons, if_neg (by rw [hp]; exact Bool.false_ne_true),
            ih]

theorem updateFirst_congr {p : α → Bool} {f g : α → α} {l : List α}
    (h : ∀ x, f x = g x) : updateFirst p f l = updateFirst p g l := by
  induction l with
  | nil => rfl
  | cons x xs ih =>
      rw [updateFirst_cons, updateFirst_cons, h x, ih]

theorem find?_eq_some_of_unique {p : α → Bool} {l : List α} {a : α}
    (hmem : a ∈ l) (hpa : p a = true)
    (huniq : ∀ x ∈ l, p x = true → x = a) : l.find? p = some a := by
  induction l with
  | nil => exact absurd hmem (List.not_mem_nil a)
  | cons x xs ih =>
      rw [List.find?_cons]
      by_cases hx : p x = true
      · rw [hx]
        exact congrArg some (huniq x (List.mem_cons_self _ _) hx)
      · rw [Bool.not_eq_true] at hx
        rw [hx]
        rcases List.mem_cons.mp hmem with hax | hmem2
        · subst hax; exact absurd hpa (by rw [hx]; exact Bool.false_ne_true)
        · exact ih hmem2 (fun y hy hpy =>
            huniq y (List.mem_cons_of_mem _ hy) hpy)

theorem pairwise_key_eq {key : α → String} {l : List α} {a : α}
    (h : l.Pairwise (fun x y => key x ≠ key y)) (ha : a ∈ l) :
    ∀ x ∈ l, key x = key a → x = a := by
  induction l with
  | nil => intro x hx; exact absurd hx (List.not_mem_nil x)
  | cons y ys ih =>
      rw [List.pairwise_cons] at h
      intro x hx hk
      rcases List.mem_cons.mp ha with hay | hay
      · subst hay
        rcases List.mem_cons.mp hx with hxy | hxy
        · exact hxy
        · exact absurd hk.symm (h.1 x hxy)
      · rcases List.mem_cons.mp hx with hxy | hxy
        · subst hxy
          exact absurd hk (h.1 a hay)
        · exact ih h.2 hay x hxy hk

theorem find?_map_pres {p : α → Bool} {m : α → α} {l : List α}
    (h : ∀ x, p (m x) = p x) : (l.map m).find? p = (l.find? p).map m := by
  induction l with
  | nil => rfl
  | cons x xs ih =>
      rw [List.map_cons, List.find?_cons, List.find?_cons, h x]
      cases hp : p x
      · exact ih
      · rfl

theorem filter_map_pres {p : α → Bool} {m : α → α} {l : List α}
    (h : ∀ x, p (m x) = p x) : (l.map m).filter p = (l.filter p).map m := by
  induction l with
  | nil => rfl
  | cons x xs ih =>
      rw [List.map_cons, List.filter_cons, List.filter_cons, h x]
      cases hp : p x
      · simpa using ih
      · simpa using ih

theorem eraseP_key_ne (key : α → String) {l : List α} (k : String)
    (h : l.Pairwise (fun a b => key a ≠ key b)) :
    ∀ x ∈ l.eraseP (fun c => key c == k), key x ≠ k := by
  induction l with
  | nil => intro x hx; simp [List.eraseP] at hx
  | cons y ys ih =>
      rw [List.pairwise_cons] at h
      intro x hx
      rw [List.eraseP_cons] at hx
      by_cases hy : (key y == k) = true
      · rw [hy, cond_true] at hx
        rw [beq_iff_eq] at hy
        intro hxk
        exact h.1 x hx (by rw [hy, hxk])
      · rw [Bool.not_eq_true] at hy
        rw [hy, cond_false] at hx
        rcases List.mem_cons.mp hx with hxy | hx2
        · subst hxy
          rw [Bool.eq_false_iff, ne_eq, beq_iff_eq] at hy
          exact hy
        · exact ih h.2 x hx2

theorem ownedCol_iff (uid cid : String) (c : Collection) :
    ownedCol uid cid c = true ↔ c.id = cid ∧ c.user_id = uid := by
  simp [ownedCol]

theorem ownedRec_iff (uid rid : String) (r : Record) :
    ownedRec uid rid r = true ↔ r.id = rid ∧ r.user_id = uid := by
  simp [ownedRec]

theorem ownedRecIn_iff (uid cid rid : String) (r : Record) :
    ownedRecIn uid cid rid r = true ↔
      r.id = rid ∧ r.user_id = uid ∧ r.collection_id = some cid := by
  simp [ownedRecIn, and_assoc]

theorem validShare_iff (t : String) (s : Share) :
    validShare t s = true ↔
      s.share_token = t ∧ s.is_active = true ∧ s.collection_id.isSome := by
  simp [validShare, and_assoc]

/-- Finds the collection row the ownership-scoped lookup returns: when a
collection C owned by the caller is in the store and no other row shares
its id, the filtered `.first()` returns exactly C. -/
theorem find?_ownedCol_self {db : DB} {C : Collection}
    (hC : C ∈ db.collections)
    (huniq : ∀ c ∈ db.collections, c.id = C.id → c = C) :
    db.collections.find? (ownedCol C.user_id C.id) = some C := by
  apply find?_eq_some_of_unique hC
  · rw [ownedCol_iff]; exact ⟨rfl, rfl⟩
  · intro x hx hpx
    rw [ownedCol_iff] at hpx
    exact huniq x hx hpx.1

/-- C1: for every collection C created by user U, Get(C.id) called as U
succeeds and returns C; called as any other identity V it fails NotFound,
with exactly the same error as for an id that matches no collection at
all: a collection owned by another user is indistinguishable from a
missing one. -/
theorem get_owner_scoped (db : DB) (C : Collection) (V : String)
    (hC : C ∈ db.collections)
    (huniq : ∀ c ∈ db.collections, c.id = C.id → c = C)
    (hV : V ≠ C.user_id) :
    (get_collection db C.user_id C.id).1 = .ok C ∧
    (get_collection db V C.id).1 = .error (notFound "Collection not found") ∧
    ∀ cid, (∀ c ∈ db.collections, c.id ≠ cid) →
      (get_collection db V cid).1 =
        .error (notFound "Collection not found") := by
  refine ⟨?_, ?_, ?_⟩
  · rw [get_collection, find?_ownedCol_self hC huniq]
  · have hnone : db.collections.find? (ownedCol V C.id) = none := by
      rw [List.find?_eq_none]
      intro c hc hp
      rw [ownedCol_iff] at hp
      exact hV (by rw [← hp.2, huniq c hc hp.1])
    rw [get_collection, hnone]
  · intro cid hno
    have hnone : db.collections.find? (ownedCol V cid) = none := by
      rw [List.find?_eq_none]
      intro c hc hp
      rw [ownedCol_iff] at hp
      exact hno c hc hp.1
    rw [get_collection, hnone]

/-- Witness for C1 on a one-collection store: the owner u1 gets the
collection back and the stranger u2 gets the NotFound error. -/
theorem get_owner_scoped_witness :
    (get_collection dbA "u1" "c1").1 = .ok colA ∧
    (get_collection dbA "u2" "c1").1 =
      .error (notFound "Collection not found") := by
  have h := get_owner_scoped dbA colA "u2" (by decide) (by decide) (by decide)
  exact ⟨h.1, h.2.1⟩

/-- C2: deleting an owned collection succeeds, removes it (a subsequent
Get fails NotFound), and every record whose membership reference was the
collection persists with only that reference cleared, while records
linked elsewhere (or unlinked) persist untouched. -/
theorem delete_clears_links (db : DB) (C : Collection)
    (hC : C ∈ db.collections)
    (hpw : db.collections.Pairwise (fun a b => a.id ≠ b.id)) :
    (delete_collection db C.user_id C.id).1 =
      .ok "Collection deleted successfully" ∧
    (get_collection (delete_collection db C.user_id C.id).2
        C.user_id C.id).1 = .error (notFound "Collection not found") ∧
    (∀ r ∈ db.records, r.collection_id = some C.id →
      { r with collection_id := none } ∈
        (delete_collection db C.user_id C.id).2.records) ∧
    (∀ r ∈ db.records, r.collection_id ≠ some C.id →
      r ∈ (delete_collection db C.user_id C.id).2.records) ∧
    (delete_collection db C.user_id C.id).2.records.length =
      db.records.length := by
  have huniq : ∀ c ∈ db.collections, c.id = C.id → c = C :=
    pairwise_key_eq hpw hC
  have hfind := find?_ownedCol_self hC huniq
  have hres : delete_collection db C.user_id C.id =
      (.ok "Collection deleted successfully",
       { db with
          records := db.records.map (fun r =>
            if r.collection_id == some C.id then
              { r with collection_id := none }
            else r),
          collections := db.collections.eraseP (fun x => x.id == C.id) }) := by
    rw [delete_collection, hfind]
  refine ⟨by rw [hres], ?_, ?_, ?_, ?_⟩
  · have hkeys := eraseP_key_ne Collection.id C.id hpw
    have hnone : (db.collections.eraseP
        (fun x => x.id == C.id)).find? (ownedCol C.user_id C.id) = none := by
      rw [List.find?_eq_none]
      intro c hc hp
      rw [ownedCol_iff] at hp
      exact hkeys c hc hp.1
    rw [hres, get_collection, hnone]
  · intro r hr hlink
    rw [hres]
    have : { r with collection_id := none } =
        (fun r => if r.collection_id == some C.id then
          { r with collection_id := none } else r) r := by
      simp [hlink]
    rw [this]
    exact List.mem_map_of_mem _ hr
  · intro r hr hlink
    rw [hres]
    have : r = (fun r => if r.collection_id == some C.id then
        { r with collection_id := none } else r) r := by
      simp only [beq_iff_eq, if_neg hlink]
    rw [this]
    exact List.mem_map_of_mem _ hr
  · rw [hres]
    exact List.length_map _ _

/-- Witness for C2: deleting c1 from the two-record store succeeds, Get
then fails, the linked record persists with its reference cleared and
the unlinked record is untouched. -/
theorem delete_clears_links_witness :
    (delete_collection dbB "u1" "c1").1 =
      .ok "Collection deleted successfully" ∧
    (get_collection (delete_collection dbB "u1" "c1").2 "u1" "c1").1 =
      .error (notFound "Collection not found") ∧
    { recA with collection_id := none } ∈
      (delete_collection dbB "u1" "c1").2.records ∧
    recB ∈ (delete_collection dbB "u1" "c1").2.records := by
  have h := delete_clears_links dbB colA (by decide) (by decide)
  exact ⟨h.1, h.2.1, h.2.2.1 recA (by decide) (by decide),
    h.2.2.2.1 recB (by decide) (by decide)⟩

/-- C3: on an existing owned collection, PatchUpdate writes name and
description only when the corresponding body field is present (an absent
field leaves the stored value unchanged), while Replace overwrites both
unconditionally, so an omitted description becomes null. Both the
response and the persisted row are characterised. -/
theorem patch_vs_replace (db : DB) (C : Collection)
    (hC : C ∈ db.collections)
    (huniq : ∀ c ∈ db.collections, c.id = C.id → c = C)
    (nm ds : Option String) (nm2 : String) (ds2 : Option String) :
    ((patch_collection db C.user_id C.id ⟨nm, ds⟩).1 =
      .ok { C with
              name := match nm with | some n => n | none => C.name,
              description := match ds with
                | some d => some d
                | none => C.description } ∧
     { C with
         name := match nm with | some n => n | none => C.name,
         description := match ds with
           | some d => some d
           | none => C.description } ∈
       (patch_collection db C.user_id C.id ⟨nm, ds⟩).2.collections) ∧
    ((update_collection db C.user_id C.id ⟨nm2, ds2⟩).1 =
      .ok { C with name := nm2, description := ds2 } ∧
     { C with name := nm2, description := ds2 } ∈
       (update_collection db C.user_id C.id ⟨nm2, ds2⟩).2.collections) := by
  have hfind := find?_ownedCol_self hC huniq
  constructor
  · constructor
    · simp only [patch_collection, hfind]
    · simp only [patch_collection, hfind]
      exact mem_updateFirst_of_find? hfind
  · constructor
    · simp only [update_collection, hfind]
    · simp only [update_collection, hfind]
      exact mem_updateFirst_of_find? hfind

/-- Witness for C3: patching colA with only a new name keeps the stored
description, and replacing colA without a description nulls it, in both
the response and the store. -/
theorem patch_vs_replace_witness :
    (patch_collection dbA "u1" "c1" ⟨some "New", none⟩).1 =
      .ok ⟨"c1", "u1", "New", some "tasks", 0⟩ ∧
    (⟨"c1", "u1", "New", some "tasks", 0⟩ : Collection) ∈
      (patch_collection dbA "u1" "c1" ⟨some "New", none⟩).2.collections ∧
    (update_collection dbA "u1" "c1" ⟨"New", none⟩).1 =
      .ok ⟨"c1", "u1", "New", none, 0⟩ ∧
    (⟨"c1", "u1", "New", none, 0⟩ : Collection) ∈
      (update_collection dbA "u1" "c1" ⟨"New", none⟩).2.collections := by
  have h := patch_vs_replace dbA colA (by decide) (by decide)
    (some "New") none "New" none
  exact ⟨h.1.1, h.1.2, h.2.1, h.2.2⟩

/-- C4: AccessShared fails with the one identical error (status 404,
detail "Invalid or expired share link") when no share carries the token,
and equally when the share carrying the token is inactive or has a null
collection reference — the three failures are indistinguishable. -/
theorem shared_access_failures_uniform (db : DB) (t : String) :
    ((∀ s ∈ db.shares, s.share_token ≠ t) →
      (access_shared_collection db t).1 =
        .error (notFound "Invalid or expired share link")) ∧
    (∀ S ∈ db.shares, S.share_token = t →
      (∀ s ∈ db.shares, s.share_token = t → s = S) →
      (S.is_active = false ∨ S.collection_id = none) →
      (access_shared_collection db t).1 =
        .error (notFound "Invalid or expired share link")) := by
  constructor
  · intro hno
    have hnone : db.shares.find? (validShare t) = none := by
      rw [List.find?_eq_none]
      intro s hs hp
      rw [validShare_iff] at hp
      exact hno s hs hp.1
    rw [access_shared_collection, hnone]
  · intro S hS htok huniq hbad
    have hnone : db.shares.find? (validShare t) = none := by
      rw [List.find?_eq_none]
      intro s hs hp
      rw [validShare_iff] at hp
      have hsS : s = S := huniq s hs hp.1
      subst hsS
      rcases hbad with hb | hb
      · rw [hp.2.1] at hb; exact absurd hb (by simp)
      · rw [hb] at hp; exact absurd hp.2.2 (by simp)
    rw [access_shared_collection, hnone]

/-- Witness for C4: an unknown token, the inactive share token and the
null-reference share token all produce the identical error. -/
theorem shared_access_failures_uniform_witness :
    (access_shared_collection dbC "zzz").1 =
      .error (notFound "Invalid or expired share link") ∧
    (access_shared_collection dbC "tokI").1 =
      .error (notFound "Invalid or expired share link") ∧
    (access_shared_collection dbC "tokN").1 =
      .error (notFound "Invalid or expired share link") := by
  refine ⟨(shared_access_failures_uniform dbC "zzz").1 (by decide),
    (shared_access_failures_uniform dbC "tokI").2 shrInactive (by decide)
      (by decide) (by decide) (Or.inl (by decide)),
    (shared_access_failures_uniform dbC "tokN").2 shrNull (by decide)
      (by decide) (by decide) (Or.inr (by decide))⟩

/-- C5: a successful AccessShared response is exactly the whitelisted
projection of the referenced collection and of the records linked to it;
moreover the response is invariant under arbitrary rewriting of every
owner id in the store, so no owner id is ever present in the output. -/
theorem shared_access_whitelist (db : DB) (t : String)
    (resp : SharedCollectionResponse)
    (h : (access_shared_collection db t).1 = .ok resp) :
    (∃ c ∈ db.collections,
       resp.collection = projCollection c ∧
       resp.records = (db.records.filter
         (fun r => r.collection_id == some c.id)).map projRecord) ∧
    ∀ f g, (access_shared_collection (scrubOwners f g db) t).1 =
      .ok resp := by
  cases hs : db.shares.find? (validShare t) with
  | none =>
      simp only [access_shared_collection, hs] at h
      exact absurd h (by simp)
  | some share =>
      cases hc : db.collections.find?
          (fun c => some c.id == share.collection_id) with
      | none =>
          simp only [access_shared_collection, hs, hc] at h
          exact absurd h (by simp)
      | some c =>
          simp only [access_shared_collection, hs, hc] at h
          have hpred : share.collection_id = some c.id := by
            have := List.find?_some hc
            rw [beq_iff_eq] at this
            exact this.symm
          have hresp : resp =
              ⟨projCollection c,
               (db.records.filter
                 (fun r => r.collection_id == share.collection_id)).map
                 projRecord⟩ := by
            simp only [Except.ok.injEq] at h
            exact h.symm
          constructor
          · refine ⟨c, List.mem_of_find?_eq_some hc, ?_, ?_⟩
            · rw [hresp]
            · rw [hresp, hpred]
          · intro f g
            have hs2 : (scrubOwners f g db).shares.find? (validShare t) =
                some share := hs
            have hc2 : (scrubOwners f g db).collections.find?
                (fun x => some x.id == share.collection_id) =
                some { c with user_id := f c.user_id } := by
              have := find?_map_pres
                (p := fun x => some x.id == share.collection_id)
                (m := fun x => { x with user_id := f x.user_id })
                (l := db.collections) (fun x => rfl)
              rw [scrubOwners]
              rw [this, hc]
              rfl
            simp only [access_shared_collection, hs2, hc2]
            have hrecs : ((scrubOwners f g db).records.filter
                (fun r => r.collection_id == share.collection_id)).map
                projRecord =
                (db.records.filter
                  (fun r => r.collection_id == share.collection_id)).map
                  projRecord := by
              show (((db.records.map
                  (fun r => { r with user_id := g r.user_id })).filter
                  (fun r => r.collection_id == share.collection_id)).map
                  projRecord) = _
              rw [filter_map_pres
                (p := fun r : Record => r.collection_id == share.collection_id)
                (m := fun r : Record => { r with user_id := g r.user_id })
                (fun x => rfl)]
              rw [List.map_map]
              exact List.map_congr_left (fun r hr => rfl)
            rw [hresp]
            simp only [Except.ok.injEq, SharedCollectionResponse.mk.injEq]
            exact ⟨rfl, hrecs⟩

/-- Witness for C5: the valid token on the fixture store returns the
projected collection and records, and the same response after every
owner id is rewritten. -/
theorem shared_access_whitelist_witness :
    (∃ c ∈ dbD.collections,
       (⟨projCollection colA, [projRecord recA]⟩ :
         SharedCollectionResponse).collection = projCollection c ∧
       (⟨projCollection colA, [projRecord recA]⟩ :
         SharedCollectionResponse).records =
         (dbD.records.filter
           (fun r => r.collection_id == some c.id)).map projRecord) ∧
    ∀ f g, (access_shared_collection (scrubOwners f g dbD) "tokV").1 =
      .ok ⟨projCollection colA, [projRecord recA]⟩ := by
  exact shared_access_whitelist dbD "tokV"
    ⟨projCollection colA, [projRecord recA]⟩ rfl

/-- C6: LinkRecord fails NotFound when no collection with the given id
is owned by the caller, and fails NotFound when the collection check
passes but no record with the given id is owned by the caller — whether
no record with that id exists at all or the record belongs to another
user.  The messages differ but both errors carry status 404. -/
theorem link_not_found_cases (db : DB) (uid cid rid : String) :
    ((∀ c ∈ db.collections, ¬(c.id = cid ∧ c.user_id = uid)) →
      (add_record_to_collection db uid cid rid).1 =
        .error (notFound "Collection not found")) ∧
    ((∃ c ∈ db.collections, c.id = cid ∧ c.user_id = uid) →
     (∀ r ∈ db.records, ¬(r.id = rid ∧ r.user_id = uid)) →
      (add_record_to_collection db uid cid rid).1 =
        .error (notFound "Record not found")) ∧
    (notFound "Collection not found").status = 404 ∧
    (notFound "Record not found").status = 404 ∧
    (notFound "Collection not found").detail ≠
      (notFound "Record not found").detail := by
  refine ⟨?_, ?_, rfl, rfl, by decide⟩
  · intro hno
    have hnone : db.collections.find? (ownedCol uid cid) = none := by
      rw [List.find?_eq_none]
      intro c hc hp
      rw [ownedCol_iff] at hp
      exact hno c hc hp
    rw [add_record_to_collection, hnone]
  · intro hcol hrec
    obtain ⟨c, hc, hcp⟩ := hcol
    have hsome : (db.collections.find? (ownedCol uid cid)).isSome := by
      rw [Option.isSome_iff_ne_none]
      intro hnone
      rw [List.find?_eq_none] at hnone
      exact hnone c hc (by rw [ownedCol_iff]; exact hcp)
    obtain ⟨c0, hc0⟩ := Option.isSome_iff_exists.mp hsome
    have hrnone : db.records.find? (ownedRec uid rid) = none := by
      rw [List.find?_eq_none]
      intro r hr hp
      rw [ownedRec_iff] at hp
      exact hrec r hr hp
    simp only [add_record_to_collection, hc0, hrnone]

/-- Witness for C6: linking into a foreign collection id fails with the
collection error; linking a record owned by another user, and linking a
record id that matches no record at all, both fail with the record
error; the two messages are distinct. -/
theorem link_not_found_cases_witness :
    (add_record_to_collection dbE "u1" "c2" "r1").1 =
      .error (notFound "Collection not found") ∧
    (add_record_to_collection dbE "u1" "c1" "r1").1 =
      .error (notFound "Record not found") ∧
    (add_record_to_collection dbE "u1" "c1" "r9").1 =
      .error (notFound "Record not found") ∧
    (notFound "Collection not found").detail ≠
      (notFound "Record not found").detail := by
  have h1 := (link_not_found_cases dbE "u1" "c2" "r1").1 (by decide)
  have h2 := (link_not_found_cases dbE "u1" "c1" "r1").2.1 (by decide)
    (by decide)
  have h3 := (link_not_found_cases dbE "u1" "c1" "r9").2.1 (by decide)
    (by decide)
  exact ⟨h1, h2, h3, by decide⟩

/-- C7: with an owned collection and an owned record, UnlinkRecord
succeeds exactly when the record is currently linked to this specific
collection, clearing its membership reference; a record linked to a
different collection or to none yields NotFound. -/
theorem unlink_requires_current_link (db : DB) (uid cid rid : String)
    (R : Record)
    (hcol : ∃ c ∈ db.collections, c.id = cid ∧ c.user_id = uid)
    (hR : R ∈ db.records) (hid : R.id = rid) (hu : R.user_id = uid)
    (huniq : ∀ r ∈ db.records, r.id = rid → r = R) :
    (R.collection_id = some cid →
      (remove_record_from_collection db uid cid rid).1 =
        .ok "Record removed from collection successfully" ∧
      { R with collection_id := none } ∈
        (remove_record_from_collection db uid cid rid).2.records) ∧
    (R.collection_id ≠ some cid →
      (remove_record_from_collection db uid cid rid).1 =
        .error (notFound "Record not found in this collection")) := by
  obtain ⟨c, hc, hcp⟩ := hcol
  have hsome : (db.collections.find? (ownedCol uid cid)).isSome := by
    rw [Option.isSome_iff_ne_none]
    intro hnone
    rw [List.find?_eq_none] at hnone
    exact hnone c hc (by rw [ownedCol_iff]; exact hcp)
  obtain ⟨c0, hc0⟩ := Option.isSome_iff_exists.mp hsome
  constructor
  · intro hlink
    have hfind : db.records.find? (ownedRecIn uid cid rid) = some R := by
      apply find?_eq_some_of_unique hR
      · rw [ownedRecIn_iff]; exact ⟨hid, hu, hlink⟩
      · intro x hx hpx
        rw [ownedRecIn_iff] at hpx
        exact huniq x hx hpx.1
    constructor
    · simp only [remove_record_from_collection, hc0, hfind]
    · simp only [remove_record_from_collection, hc0, hfind]
      exact mem_updateFirst_of_find? hfind
  · intro hnolink
    have hfind : db.records.find? (ownedRecIn uid cid rid) = none := by
      rw [List.find?_eq_none]
      intro r hr hp
      rw [ownedRecIn_iff] at hp
      exact hnolink (by rw [← huniq r hr hp.1]; exact hp.2.2)
    simp only [remove_record_from_collection, hc0, hfind]

/-- Witness for C7: unlinking recC from its collection c1 succeeds and
clears the reference, while unlinking it from c3 — an owned collection
it is not linked to — fails with the dedicated message. -/
theorem unlink_requires_current_link_witness :
    (remove_record_from_collection dbF "u1" "c1" "r3").1 =
      .ok "Record removed from collection successfully" ∧
    { recC with collection_id := none } ∈
      (remove_record_from_collection dbF "u1" "c1" "r3").2.records ∧
    (remove_record_from_collection dbF "u1" "c3" "r3").1 =
      .error (notFound "Record not found in this collection") := by
  have h1 := (unlink_requires_current_link dbF "u1" "c1" "r3" recC
    (by decide) (by decide) (by decide) (by decide) (by decide)).1 (by decide)
  have h2 := (unlink_requires_current_link dbF "u1" "c3" "r3" recC
    (by decide) (by decide) (by decide) (by decide) (by decide)).2 (by decide)
  exact ⟨h1.1, h1.2, h2⟩

/-- C8: LinkRecord is idempotent.  When the ownership checks pass, a
link of a record already linked to the collection succeeds and returns
the store unchanged, and in general running LinkRecord a second time
gives exactly the same response and store as the first run. -/
theorem link_idempotent (db : DB) (uid cid rid : String)
    (hcol : (db.collections.find? (ownedCol uid cid)).isSome)
    (hrec : (db.records.find? (ownedRec uid rid)).isSome) :
    (∀ R, db.records.find? (ownedRec uid rid) = some R →
      R.collection_id = some cid →
      add_record_to_collection db uid cid rid =
        (.ok "Record added to collection successfully", db)) ∧
    add_record_to_collection
        (add_record_to_collection db uid cid rid).2 uid cid rid =
      add_record_to_collection db uid cid rid := by
  obtain ⟨c0, hc0⟩ := Option.isSome_iff_exists.mp hcol
  obtain ⟨r0, hr0⟩ := Option.isSome_iff_exists.mp hrec
  constructor
  · intro R hfind hlink
    have hfix : ({ R with collection_id := some cid } : Record) = R := by
      rw [← hlink]
    simp only [add_record_to_collection, hc0, hfind]
    rw [updateFirst_eq_self_of_fix hfind hfix]
  · have hpres : ∀ x : Record,
        ownedRec uid rid { x with collection_id := some cid } =
          ownedRec uid rid x := fun x => rfl
    have hrec1 : (updateFirst (ownedRec uid rid)
        (fun r => { r with collection_id := some cid })
        db.records).find? (ownedRec uid rid) =
        some { r0 with collection_id := some cid } := by
      rw [find?_updateFirst hpres, hr0]
      rfl
    simp only [add_record_to_collection, hc0, hr0, hrec1]
    rw [updateFirst_updateFirst hpres]

/-- Witness for C8: linking the already linked record r3 into c1 returns
success and the unchanged store, and a repeated link equals a single
link. -/
theorem link_idempotent_witness :
    add_record_to_collection dbF "u1" "c1" "r3" =
      (.ok "Record added to collection successfully", dbF) ∧
    add_record_to_collection
        (add_record_to_collection dbF "u1" "c1" "r3").2 "u1" "c1" "r3" =
      add_record_to_collection dbF "u1" "c1" "r3" := by
  have h := link_idempotent dbF "u1" "c1" "r3" (by decide) (by decide)
  exact ⟨h.1 recC (by decide) (by decide), h.2⟩

/-- C9: every handler that can fail NotFound performs its checks before
any write: whenever a handler returns an error, the store it returns is
exactly the store it was given. -/
theorem notfound_preserves_store (db : DB) (uid cid rid t : String)
    (body : CollectionCreate) (pbody : CollectionUpdate) (e : Err) :
    ((get_collection db uid cid).1 = .error e →
      (get_collection db uid cid).2 = db) ∧
    ((update_collection db uid cid body).1 = .error e →
      (update_collection db uid cid body).2 = db) ∧
    ((patch_collection db uid cid pbody).1 = .error e →
      (patch_collection db uid cid pbody).2 = db) ∧
    ((get_records_from_collection db uid cid).1 = .error e →
      (get_records_from_collection db uid cid).2 = db) ∧
    ((add_record_to_collection db uid cid rid).1 = .error e →
      (add_record_to_collection db uid cid rid).2 = db) ∧
    ((remove_record_from_collection db uid cid rid).1 = .error e →
      (remove_record_from_collection db uid cid rid).2 = db) ∧
    ((delete_collection db uid cid).1 = .error e →
      (delete_collection db uid cid).2 = db) ∧
    ((access_shared_collection db t).1 = .error e →
      (access_shared_collection db t).2 = db) := by
  refine ⟨?_, ?_, ?_, ?_, ?_, ?_, ?_, ?_⟩ <;> intro h
  · cases hf : db.collections.find? (ownedCol uid cid) with
    | none => simp only [get_collection, hf]
    | some c =>
        simp only [get_collection, hf] at h
        exact Except.noConfusion h
  · cases hf : db.collections.find? (ownedCol uid cid) with
    | none => simp only [update_collection, hf]
    | some c =>
        simp only [update_collection, hf] at h
        exact Except.noConfusion h
  · cases hf : db.collections.find? (ownedCol uid cid) with
    | none => simp only [patch_collection, hf]
    | some c =>
        simp only [patch_collection, hf] at h
        exact Except.noConfusion h
  · cases hf : db.collections.find? (ownedCol uid cid) with
    | none => simp only [get_records_from_collection, hf]
    | some c =>
        simp only [get_records_from_collection, hf] at h
        exact Except.noConfusion h
  · cases hf : db.collections.find? (ownedCol uid cid) with
    | none => simp only [add_record_to_collection, hf]
    | some c =>
        cases hr : db.records.find? (ownedRec uid rid) with
        | none => simp only [add_record_to_collection, hf, hr]
        | some r =>
            simp only [add_record_to_collection, hf, hr] at h
            exact Except.noConfusion h
  · cases hf : db.collections.find? (ownedCol uid cid) with
    | none => simp only [remove_record_from_collection, hf]
    | some c =>
        cases hr : db.records.find? (ownedRecIn uid cid rid) with
        | none => simp only [remove_record_from_collection, hf, hr]
        | some r =>
            simp only [remove_record_from_collection, hf, hr] at h
            exact Except.noConfusion h
  · cases hf : db.collections.find? (ownedCol uid cid) with
    | none => simp only [delete_collection, hf]
    | some c =>
        simp only [delete_collection, hf] at h
        exact Except.noConfusion h
  · cases hs : db.shares.find? (validShare t) with
    | none => simp only [access_shared_collection, hs]
    | some s =>
        cases hc : db.collections.find?
            (fun c => some c.id == s.collection_id) with
        | none => simp only [access_shared_collection, hs, hc]
        | some c =>
            simp only [access_shared_collection, hs, hc] at h
            exact Except.noConfusion h

/-- Witness for C9: several failing calls on the fixture stores leave
them untouched. -/
theorem notfound_preserves_store_witness :
    (get_collection dbA "u2" "c1").2 = dbA ∧
    (add_record_to_collection dbA "u2" "c1" "r9").2 = dbA ∧
    (remove_record_from_collection dbA "u2" "c1" "r9").2 = dbA ∧
    (delete_collection dbA "u2" "c1").2 = dbA ∧
    (access_shared_collection dbA "tok").2 = dbA := by
  have h1 := notfound_preserves_store dbA "u2" "c1" "r9" "tok"
    ⟨"n", none⟩ ⟨none, none⟩ (notFound "Collection not found")
  have h2 := notfound_preserves_store dbA "u2" "c1" "r9" "tok"
    ⟨"n", none⟩ ⟨none, none⟩ (notFound "Invalid or expired share link")
  exact ⟨h1.1 rfl, h1.2.2.2.2.1 rfl, h1.2.2.2.2.2.1 rfl,
    h1.2.2.2.2.2.2.1 rfl, h2.2.2.2.2.2.2.2 rfl⟩

/-- C10: the record-set queries of ListRecords, Delete and AccessShared
select records by membership reference alone: any record whose reference
equals the collection id — whoever owns it — appears in a successful
ListRecords result, has its reference cleared by a successful Delete,
and appears (projected) in a successful AccessShared response for that
collection. -/
theorem membership_reference_only (db : DB) (uid cid t : String)
    (r : Record) (hr : r ∈ db.records)
    (hlink : r.collection_id = some cid) :
    (∀ out, (get_records_from_collection db uid cid).1 = .ok out →
      r ∈ out) ∧
    (∀ m, (delete_collection db uid cid).1 = .ok m →
      { r with collection_id := none } ∈
        (delete_collection db uid cid).2.records) ∧
    (∀ resp, (access_shared_collection db t).1 = .ok resp →
      resp.collection.id = cid → projRecord r ∈ resp.records) := by
  refine ⟨?_, ?_, ?_⟩
  · intro out h
    cases hf : db.collections.find? (ownedCol uid cid) with
    | none =>
        rw [get_records_from_collection, hf] at h
        exact Except.noConfusion h
    | some c =>
        rw [get_records_from_collection, hf] at h
        simp only [Except.ok.injEq] at h
        rw [← h]
        rw [List.mem_filter]
        exact ⟨hr, by rw [beq_iff_eq]; exact hlink⟩
  · intro m h
    cases hf : db.collections.find? (ownedCol uid cid) with
    | none =>
        rw [delete_collection, hf] at h
        exact Except.noConfusion h
    | some c =>
        simp only [delete_collection, hf]
        have : { r with collection_id := none } =
            (fun r => if r.collection_id == some cid then
              { r with collection_id := none } else r) r := by
          simp [hlink]
        rw [this]
        exact List.mem_map_of_mem _ hr
  · intro resp h hcid
    cases hs : db.shares.find? (validShare t) with
    | none =>
        simp only [access_shared_collection, hs] at h
        exact Except.noConfusion h
    | some share =>
        cases hc : db.collections.find?
            (fun c => some c.id == share.collection_id) with
        | none =>
            simp only [access_shared_collection, hs, hc] at h
            exact Except.noConfusion h
        | some c =>
            simp only [access_shared_collection, hs, hc] at h
            have hpred : share.collection_id = some c.id := by
              have := List.find?_some hc
              rw [beq_iff_eq] at this
              exact this.symm
            simp only [Except.ok.injEq] at h
            rw [← h] at hcid ⊢
            have hcc : c.id = cid := hcid
            apply List.mem_map_of_mem
            rw [List.mem_filter]
            refine ⟨hr, ?_⟩
            rw [beq_iff_eq, hpred, hcc]
            exact hlink

/-- Witness for C10 on the share fixture store: the record recA, linked
to c1 but owned by u2 while c1 belongs to u1, is listed by ListRecords
as u1, is cleared by Delete as u1, and appears in the shared response. -/
theorem membership_reference_only_witness :
    recA ∈ [recA] ∧
    { recA with collection_id := none } ∈
      (delete_collection dbD "u1" "c1").2.records ∧
    projRecord recA ∈ [projRecord recA] := by
  have h := membership_reference_only dbD "u1" "c1" "tokV" recA
    (by decide) (by decide)
  exact ⟨h.1 [recA] rfl, h.2.1 "Collection deleted successfully" rfl,
    h.2.2 ⟨projCollection colA, [projRecord recA]⟩ rfl rfl⟩

end Sunga
